import Mathlib

/-!
Shallow embedding of the asset-transfer chaincode in `atcc.go`
(package main, Hyperledger Fabric tutorial chaincode).

The world state exposed through `ctx.GetStub()` is modelled as an
association list from keys to stored JSON values, together with
fault-injection tables saying which keys error on `GetState`,
`PutState` and `DelState` (the Fabric stub's calls are fallible).
Errors are modelled as the strings the Go code builds with
`fmt.Errorf`.  A mutating chaincode method returns `World × Option
String` (the possibly updated world state plus the Go `error`
return); read-only methods return `Except String α`.

`json.Marshal` of an `Asset` value cannot fail in Go (a struct of
strings and ints always marshals), so `marshalAsset` is total and the
`if err != nil` branches guarding it in the Go code are dead.
`json.Unmarshal` is modelled faithfully to Go's `encoding/json`
semantics on the shapes expressible here: a JSON object assigns
matching keys to struct fields — an exact tag/name match, or failing
that a case-insensitive one — unknown keys are ignored, missing keys
leave the zero value, `null` leaves the field untouched, and a
wrongly typed value for a matched field is an error.  Since the five
tagged names of `Asset` are pairwise distinct under case folding,
exact-match-first-then-fold coincides with comparing folded keys
directly, which is how `applyField` matches.  (Floating-point
numbers are not representable in the `Json` type, and the folding is
the ASCII one of encoding/json since Go 1.20 — earlier Go also folded
U+017F and U+212A; no claim depends on either.)
-/

namespace Atcc

/-- JSON values as stored in the world state (the byte slices that
`GetState`/`PutState` move around, parsed). -/
inductive Json where
  | null : Json
  | bool : Bool → Json
  | int : Int → Json
  | str : String → Json
  | arr : List Json → Json
  | obj : List (String × Json) → Json

/-- The `Asset` struct of atcc.go, fields in the Go declaration order. -/
structure Asset where
  AppraisedValue : Int
  Color : String
  ID : String
  Owner : String
  Size : Int
deriving DecidableEq, Repr

/-- The Go zero value of `Asset` (what `var asset Asset` declares). -/
def Asset.zero : Asset :=
  { AppraisedValue := 0, Color := "", ID := "", Owner := "", Size := 0 }

namespace AList

/-- Lookup in an association list (first binding wins). -/
def lookup : List (String × α) → String → Option α
  | [], _ => none
  | (k, v) :: rest, key => if k = key then some v else lookup rest key

/-- Upsert: replace the first binding of `key`, or append a new one. -/
def put : List (String × α) → String → α → List (String × α)
  | [], key, v => [(key, v)]
  | (k, w) :: rest, key, v =>
    if k = key then (key, v) :: rest else (k, w) :: put rest key v

/-- Remove every binding of `key`. -/
def erase : List (String × α) → String → List (String × α)
  | [], _ => []
  | (k, w) :: rest, key =>
    if k = key then erase rest key else (k, w) :: erase rest key

theorem lookup_put (l : List (String × α)) (k : String) (v : α) (k' : String) :
    lookup (put l k v) k' = if k = k' then some v else lookup l k' := by
  induction l with
  | nil => simp [put, lookup]
  | cons hd tl ih =>
    obtain ⟨k₀, v₀⟩ := hd
    by_cases h₀ : k₀ = k
    · subst h₀
      by_cases h₁ : k₀ = k'
      · subst h₁; simp [put, lookup]
      · simp [put, lookup, h₁]
    · by_cases h₁ : k₀ = k'
      · subst h₁
        have hne : k ≠ k₀ := fun h => h₀ h.symm
        simp [put, lookup, h₀, hne, ih]
      · simp [put, lookup, h₀, h₁, ih]

theorem lookup_erase (l : List (String × α)) (k : String) (k' : String) :
    lookup (erase l k) k' = if k = k' then none else lookup l k' := by
  induction l with
  | nil => simp [erase, lookup]
  | cons hd tl ih =>
    obtain ⟨k₀, v₀⟩ := hd
    by_cases h₀ : k₀ = k
    · subst h₀
      by_cases h₁ : k₀ = k'
      · subst h₁; simpa [erase, lookup] using ih
      · simpa [erase, lookup, h₁] using ih
    · by_cases h₁ : k₀ = k'
      · subst h₁
        have hne : k ≠ k₀ := fun h => h₀ h.symm
        simp [erase, lookup, h₀, hne, ih]
      · simp [erase, lookup, h₀, h₁, ih]

theorem put_lookup_eq_self (l : List (String × α)) (k : String) (v : α)
    (h : lookup l k = some v) : put l k v = l := by
  induction l with
  | nil => simp [lookup] at h
  | cons hd tl ih =>
    obtain ⟨k₀, v₀⟩ := hd
    by_cases h₀ : k₀ = k
    · subst h₀
      simp [lookup] at h
      simp [put, h]
    · simp [lookup, h₀] at h
      simp [put, h₀, ih h]

end AList

/-- The world state visible through the transaction stub: committed
key/value data plus, per key, whether the stub call itself fails there
(and with which underlying error). -/
structure World where
  data : List (String × Json)
  readErrs : List (String × String)
  putErrs : List (String × String)
  delErrs : List (String × String)

/-- Stub `GetState`: a nil byte slice (absence) is `none`, not an error. -/
def World.getState (w : World) (k : String) : Except String (Option Json) :=
  match AList.lookup w.readErrs k with
  | some e => .error e
  | none => .ok (AList.lookup w.data k)

/-- Stub `PutState`: upsert of the serialized record, or a write error
leaving the data untouched. -/
def World.putState (w : World) (k : String) (v : Json) : World × Option String :=
  match AList.lookup w.putErrs k with
  | some e => (w, some e)
  | none => ({ w with data := AList.put w.data k v }, none)

/-- Stub `DelState`: removal of the key, or a delete error leaving the
data untouched. -/
def World.delState (w : World) (k : String) : World × Option String :=
  match AList.lookup w.delErrs k with
  | some e => (w, some e)
  | none => ({ w with data := AList.erase w.data k }, none)

/-- Behaviour of `json.Marshal` on an `Asset`: an object with the five
tagged fields, in struct order.  Total, since marshalling a struct of
strings and ints never fails. -/
def marshalAsset (a : Asset) : Json :=
  .obj [("AppraisedValue", .int a.AppraisedValue),
        ("Color", .str a.Color),
        ("ID", .str a.ID),
        ("Owner", .str a.Owner),
        ("Size", .int a.Size)]

/-- Decoding of a JSON value into an int struct field: a number is
assigned, `null` leaves the field unchanged, anything else is a type
error. -/
def decodeIntField (a : Asset) (upd : Asset → Int → Asset) (msg : String) :
    Json → Except String Asset
  | .int n => .ok (upd a n)
  | .null => .ok a
  | _ => .error msg

/-- Decoding of a JSON value into a string struct field. -/
def decodeStrField (a : Asset) (upd : Asset → String → Asset) (msg : String) :
    Json → Except String Asset
  | .str s => .ok (upd a s)
  | .null => .ok a
  | _ => .error msg

/-- Folding of a JSON object key for matching against the struct field
names, as `encoding/json` does when no exact match exists (ASCII case
folding).  Because the five names of `Asset` are pairwise distinct
under this fold, comparing folded keys at once is equivalent to Go's
exact-match-first-then-case-insensitive lookup. -/
def foldKey (s : String) : String :=
  ⟨s.data.map Char.toLower⟩

/-- One step of `json.Unmarshal` into an `Asset`: assign a single JSON
object member to the struct, matching its key to a field name
case-insensitively.  Keys matching no field are ignored, `null` leaves
the field unchanged, a wrongly typed value for a matched name errors. -/
def applyField (a : Asset) (name : String) (j : Json) : Except String Asset :=
  if foldKey name = "appraisedvalue" then
    decodeIntField a (fun a n => { a with AppraisedValue := n })
      "json: cannot unmarshal value into Go struct field Asset.AppraisedValue of type int" j
  else if foldKey name = "color" then
    decodeStrField a (fun a s => { a with Color := s })
      "json: cannot unmarshal value into Go struct field Asset.Color of type string" j
  else if foldKey name = "id" then
    decodeStrField a (fun a s => { a with ID := s })
      "json: cannot unmarshal value into Go struct field Asset.ID of type string" j
  else if foldKey name = "owner" then
    decodeStrField a (fun a s => { a with Owner := s })
      "json: cannot unmarshal value into Go struct field Asset.Owner of type string" j
  else if foldKey name = "size" then
    decodeIntField a (fun a n => { a with Size := n })
      "json: cannot unmarshal value into Go struct field Asset.Size of type int" j
  else
    .ok a

theorem foldKey_eval_appraisedValue : foldKey "AppraisedValue" = "appraisedvalue" := by decide

theorem foldKey_eval_color : foldKey "Color" = "color" := by decide

theorem foldKey_eval_id : foldKey "ID" = "id" := by decide

theorem foldKey_eval_owner : foldKey "Owner" = "owner" := by decide

theorem foldKey_eval_size : foldKey "Size" = "size" := by decide

/-- Fold `applyField` over the members of a JSON object. -/
def unmarshalFields (a : Asset) : List (String × Json) → Except String Asset
  | [] => .ok a
  | (name, j) :: rest =>
    match applyField a name j with
    | .ok a' => unmarshalFields a' rest
    | .error e => .error e

/-- Behaviour of `json.Unmarshal(assetJSON, &asset)`: starts from the
zero value; a top-level `null` leaves it; a non-object top level is a
type error. -/
def unmarshalAsset : Json → Except String Asset
  | .obj fields => unmarshalFields Asset.zero fields
  | .null => .ok Asset.zero
  | _ => .error "json: cannot unmarshal value into Go value of type main.Asset"

/-- The fixed seed assets of `InitLedger` (atcc.go lines 27-34). -/
def initAssets : List Asset :=
  [{ ID := "asset1", Color := "blue", Size := 5, Owner := "Tomoko", AppraisedValue := 300 },
   { ID := "asset2", Color := "red", Size := 5, Owner := "Brad", AppraisedValue := 400 },
   { ID := "asset3", Color := "green", Size := 10, Owner := "Jin Soo", AppraisedValue := 500 },
   { ID := "asset4", Color := "yellow", Size := 10, Owner := "Max", AppraisedValue := 600 },
   { ID := "asset5", Color := "black", Size := 15, Owner := "Adriana", AppraisedValue := 700 },
   { ID := "asset6", Color := "white", Size := 15, Owner := "Michel", AppraisedValue := 800 }]

/-- The loop body of `InitLedger`: marshal each seed asset (cannot
fail) and `PutState` it under its ID, wrapping a write error in
`Failed to put to world state. %v` and stopping at the first failure. -/
def initLedgerLoop (w : World) : List Asset → World × Option String
  | [] => (w, none)
  | asset :: rest =>
    match w.putState asset.ID (marshalAsset asset) with
    | (w', some e) => (w', some ("Failed to put to world state. " ++ e))
    | (w', none) => initLedgerLoop w' rest

/-- `InitLedger` (atcc.go lines 25-60). -/
def InitLedger (w : World) : World × Option String :=
  initLedgerLoop w initAssets

/-- `AssetExists` (atcc.go lines 235-245): point read; a read error is
replaced by a message naming the id; existence is non-nil-ness. -/
def AssetExists (w : World) (id : String) : Except String Bool :=
  match w.getState id with
  | .error _ => .error ("Failed to read world state for asset with id " ++ id)
  | .ok assetJSON => .ok assetJSON.isSome

/-- `CreateAsset` (atcc.go lines 63-97). -/
def CreateAsset (w : World) (id : String) (color : String) (size : Int)
    (owner : String) (appraisedValue : Int) : World × Option String :=
  match AssetExists w id with
  | .error e => (w, some e)
  | .ok true => (w, some ("The asset with id " ++ id ++ " already exists"))
  | .ok false =>
    let asset : Asset :=
      { ID := id, Color := color, Size := size, Owner := owner,
        AppraisedValue := appraisedValue }
    w.putState id (marshalAsset asset)

/-- `ReadAsset` (atcc.go lines 100-121). -/
def ReadAsset (w : World) (id : String) : Except String Asset :=
  match w.getState id with
  | .error _ => .error ("Failed to read world state for asset with id " ++ id)
  | .ok none => .error ("The asset with id " ++ id ++ " does not exist")
  | .ok (some assetJSON) => unmarshalAsset assetJSON

/-- `UpdateAsset` (atcc.go lines 124-158): full replacement of all five
fields. -/
def UpdateAsset (w : World) (id : String) (color : String) (size : Int)
    (owner : String) (appraisedValue : Int) : World × Option String :=
  match AssetExists w id with
  | .error e => (w, some e)
  | .ok false => (w, some ("The asset with id " ++ id ++ " does not exist"))
  | .ok true =>
    let updatedAsset : Asset :=
      { ID := id, Color := color, Size := size, Owner := owner,
        AppraisedValue := appraisedValue }
    w.putState id (marshalAsset updatedAsset)

/-- `DeleteAsset` (atcc.go lines 161-177). -/
def DeleteAsset (w : World) (id : String) : World × Option String :=
  match AssetExists w id with
  | .error e => (w, some e)
  | .ok false => (w, some ("The asset with id " ++ id ++ " does not exist"))
  | .ok true => w.delState id

/-- `TransferAsset` (atcc.go lines 179-198): read-modify-write on the
owner field only. -/
def TransferAsset (w : World) (id : String) (newOwner : String) : World × Option String :=
  match ReadAsset w id with
  | .error e => (w, some e)
  | .ok transferedAsset =>
    w.putState id (marshalAsset { transferedAsset with Owner := newOwner })

/-- Marshalling then unmarshalling an asset round-trips. -/
theorem unmarshal_marshal (a : Asset) : unmarshalAsset (marshalAsset a) = .ok a := by
  obtain ⟨av, c, i, o, s⟩ := a
  simp [marshalAsset, unmarshalAsset, unmarshalFields, applyField,
    decodeIntField, decodeStrField, Asset.zero, foldKey_eval_appraisedValue,
    foldKey_eval_color, foldKey_eval_id, foldKey_eval_owner, foldKey_eval_size]

/-- A concrete asset used as stored data in witness instantiations. -/
def sampleAsset : Asset :=
  { AppraisedValue := 300, Color := "blue", ID := "asset1", Owner := "Tomoko", Size := 5 }

/-- C1: for every asset tuple whose id is not already present in the
store (and a store that neither read- nor write-faults on that id),
`CreateAsset` succeeds and a subsequent `ReadAsset` on that id returns
an `Asset` whose five fields equal exactly the input tuple. -/
theorem create_then_read (w : World) (id color : String) (size : Int)
    (owner : String) (appraisedValue : Int)
    (hd : AList.lookup w.data id = none)
    (hr : AList.lookup w.readErrs id = none)
    (hp : AList.lookup w.putErrs id = none) :
    (CreateAsset w id color size owner appraisedValue).2 = none ∧
    ReadAsset (CreateAsset w id color size owner appraisedValue).1 id =
      .ok { AppraisedValue := appraisedValue, Color := color, ID := id,
            Owner := owner, Size := size } := by
  simp [CreateAsset, AssetExists, World.getState, World.putState, ReadAsset,
    hd, hr, hp, AList.lookup_put, unmarshal_marshal]

theorem create_then_read_witness :
    (CreateAsset ⟨[], [], [], []⟩ "asset9" "pink" 3 "Ana" 42).2 = none ∧
    ReadAsset (CreateAsset ⟨[], [], [], []⟩ "asset9" "pink" 3 "Ana" 42).1 "asset9" =
      .ok { AppraisedValue := 42, Color := "pink", ID := "asset9",
            Owner := "Ana", Size := 3 } :=
  create_then_read ⟨[], [], [], []⟩ "asset9" "pink" 3 "Ana" 42 rfl rfl rfl

/-- C2: for every id already bound to a record in the store (the store
not read-faulting on it), `CreateAsset` with any argument tuple fails
with the duplicate-id error naming that id and returns the store
entirely unchanged. -/
theorem create_duplicate (w : World) (id : String) (j : Json) (color : String)
    (size : Int) (owner : String) (appraisedValue : Int)
    (hd : AList.lookup w.data id = some j)
    (hr : AList.lookup w.readErrs id = none) :
    CreateAsset w id color size owner appraisedValue =
      (w, some ("The asset with id " ++ id ++ " already exists")) := by
  simp [CreateAsset, AssetExists, World.getState, hd, hr]

theorem create_duplicate_witness :
    CreateAsset ⟨[("asset1", marshalAsset sampleAsset)], [], [], []⟩
      "asset1" "red" 7 "Bob" 99 =
    (⟨[("asset1", marshalAsset sampleAsset)], [], [], []⟩,
     some "The asset with id asset1 already exists") := by
  simpa using create_duplicate
    ⟨[("asset1", marshalAsset sampleAsset)], [], [], []⟩
    "asset1" (marshalAsset sampleAsset) "red" 7 "Bob" 99 rfl rfl

/-- C3: for every id with no record in the store (the store not
read-faulting on it), `ReadAsset`, `UpdateAsset`, `DeleteAsset` and
`TransferAsset` each fail with the not-found error naming that id and
return the store state unchanged. -/
theorem notfound_ops (w : World) (id : String)
    (hd : AList.lookup w.data id = none)
    (hr : AList.lookup w.readErrs id = none) :
    ReadAsset w id = .error ("The asset with id " ++ id ++ " does not exist") ∧
    (∀ color size owner appraisedValue,
      UpdateAsset w id color size owner appraisedValue =
        (w, some ("The asset with id " ++ id ++ " does not exist"))) ∧
    DeleteAsset w id = (w, some ("The asset with id " ++ id ++ " does not exist")) ∧
    (∀ newOwner, TransferAsset w id newOwner =
      (w, some ("The asset with id " ++ id ++ " does not exist"))) := by
  simp [ReadAsset, UpdateAsset, DeleteAsset, TransferAsset, AssetExists,
    World.getState, hd, hr]

theorem notfound_ops_witness :
    ReadAsset ⟨[], [], [], []⟩ "ghost" =
      .error "The asset with id ghost does not exist" ∧
    UpdateAsset ⟨[], [], [], []⟩ "ghost" "red" 1 "Bob" 2 =
      (⟨[], [], [], []⟩, some "The asset with id ghost does not exist") ∧
    DeleteAsset ⟨[], [], [], []⟩ "ghost" =
      (⟨[], [], [], []⟩, some "The asset with id ghost does not exist") ∧
    TransferAsset ⟨[], [], [], []⟩ "ghost" "Eve" =
      (⟨[], [], [], []⟩, some "The asset with id ghost does not exist") := by
  have h := notfound_ops ⟨[], [], [], []⟩ "ghost" rfl rfl
  exact ⟨h.1, h.2.1 "red" 1 "Bob" 2, h.2.2.1, h.2.2.2 "Eve"⟩

/-- C4: for every id whose stored record deserializes to an `Asset`
(and a store that neither read- nor write-faults on that id), after
`TransferAsset` succeeds the record stored under the id reads back
with `Owner` equal to the new owner and all other fields at their
pre-transfer values, and every other key of the store is unchanged. -/
theorem transfer_changes_only_owner (w : World) (id newOwner : String)
    (j : Json) (a : Asset)
    (hd : AList.lookup w.data id = some j)
    (hu : unmarshalAsset j = .ok a)
    (hr : AList.lookup w.readErrs id = none)
    (hp : AList.lookup w.putErrs id = none) :
    (TransferAsset w id newOwner).2 = none ∧
    ReadAsset (TransferAsset w id newOwner).1 id =
      .ok { AppraisedValue := a.AppraisedValue, Color := a.Color, ID := a.ID,
            Owner := newOwner, Size := a.Size } ∧
    (∀ k, k ≠ id →
      AList.lookup (TransferAsset w id newOwner).1.data k = AList.lookup w.data k) := by
  refine ⟨?_, ?_, ?_⟩
  · simp [TransferAsset, ReadAsset, World.getState, World.putState, hd, hr, hp, hu]
  · simp [TransferAsset, ReadAsset, World.getState, World.putState, hd, hr, hp, hu,
      AList.lookup_put, unmarshal_marshal]
  · intro k hk
    have hk' : id ≠ k := Ne.symm hk
    simp [TransferAsset, ReadAsset, World.getState, World.putState, hd, hr, hp, hu,
      AList.lookup_put, hk']

theorem transfer_changes_only_owner_witness :
    (TransferAsset ⟨[("asset1", marshalAsset sampleAsset)], [], [], []⟩
      "asset1" "Eve").2 = none ∧
    ReadAsset (TransferAsset ⟨[("asset1", marshalAsset sampleAsset)], [], [], []⟩
      "asset1" "Eve").1 "asset1" =
      .ok { AppraisedValue := 300, Color := "blue", ID := "asset1",
            Owner := "Eve", Size := 5 } ∧
    AList.lookup (TransferAsset ⟨[("asset1", marshalAsset sampleAsset)], [], [], []⟩
      "asset1" "Eve").1.data "other" =
      AList.lookup [("asset1", marshalAsset sampleAsset)] "other" := by
  have h := transfer_changes_only_owner
    ⟨[("asset1", marshalAsset sampleAsset)], [], [], []⟩ "asset1" "Eve"
    (marshalAsset sampleAsset) sampleAsset rfl (unmarshal_marshal sampleAsset) rfl rfl
  exact ⟨h.1, by simpa [sampleAsset] using h.2.1, h.2.2 "other" (by decide)⟩

/-- C5: for every id already bound in the store (the store neither
read- nor write-faulting on that id) and every argument tuple,
`UpdateAsset` succeeds and a subsequent `ReadAsset` returns exactly
that tuple, inheriting nothing from the previously stored record. -/
theorem update_then_read (w : World) (id : String) (j : Json) (color : String)
    (size : Int) (owner : String) (appraisedValue : Int)
    (hd : AList.lookup w.data id = some j)
    (hr : AList.lookup w.readErrs id = none)
    (hp : AList.lookup w.putErrs id = none) :
    (UpdateAsset w id color size owner appraisedValue).2 = none ∧
    ReadAsset (UpdateAsset w id color size owner appraisedValue).1 id =
      .ok { AppraisedValue := appraisedValue, Color := color, ID := id,
            Owner := owner, Size := size } := by
  simp [UpdateAsset, ReadAsset, AssetExists, World.getState, World.putState,
    hd, hr, hp, AList.lookup_put, unmarshal_marshal]

theorem update_then_read_witness :
    (UpdateAsset ⟨[("asset1", marshalAsset sampleAsset)], [], [], []⟩
      "asset1" "gold" 9 "Ken" 1234).2 = none ∧
    ReadAsset (UpdateAsset ⟨[("asset1", marshalAsset sampleAsset)], [], [], []⟩
      "asset1" "gold" 9 "Ken" 1234).1 "asset1" =
      .ok { AppraisedValue := 1234, Color := "gold", ID := "asset1",
            Owner := "Ken", Size := 9 } :=
  update_then_read ⟨[("asset1", marshalAsset sampleAsset)], [], [], []⟩
    "asset1" (marshalAsset sampleAsset) "gold" 9 "Ken" 1234 rfl rfl rfl

/-- C9: when the point read does not fault, `AssetExists` returns
exactly the non-emptiness of the value stored under the id; when the
point read itself errors, `AssetExists` returns an error naming the
id. -/
theorem assetExists_spec (w : World) (id : String) :
    (AList.lookup w.readErrs id = none →
      AssetExists w id = .ok (AList.lookup w.data id).isSome) ∧
    (∀ e, AList.lookup w.readErrs id = some e →
      AssetExists w id =
        .error ("Failed to read world state for asset with id " ++ id)) := by
  constructor
  · intro h; simp [AssetExists, World.getState, h]
  · intro e h; simp [AssetExists, World.getState, h]

theorem assetExists_spec_witness :
    AssetExists ⟨[("a", Json.null)], [], [], []⟩ "a" = .ok true ∧
    AssetExists ⟨[], [("b", "disk failure")], [], []⟩ "b" =
      .error "Failed to read world state for asset with id b" := by
  constructor
  · simpa using (assetExists_spec ⟨[("a", Json.null)], [], [], []⟩ "a").1 rfl
  · simpa using
      (assetExists_spec ⟨[], [("b", "disk failure")], [], []⟩ "b").2 "disk failure" rfl

/-- A world whose store write for `asset1` fails with error `boom`. -/
def putFailWorld : World := ⟨[], [], [("asset1", "boom")], []⟩

/-- C7 counterexample: when the first seed write fails with the store
error `boom`, `InitLedger` surfaces `Failed to put to world state.
boom`, which is not identical to the store error `boom`. -/
theorem initLedger_wraps_put_error :
    InitLedger putFailWorld =
      (putFailWorld, some "Failed to put to world state. boom") ∧
    some "Failed to put to world state. boom" ≠ some "boom" := by
  constructor
  · simp [InitLedger, initLedgerLoop, initAssets, World.putState,
      putFailWorld, AList.lookup]
  · decide

/-- C7 (amended): when a seed write fails (here on `asset3`),
`InitLedger` stops immediately — the earlier seeds are written, the
remaining ones are not — and returns the store error wrapped in the
message `Failed to put to world state. `. -/
theorem initLedger_failfast (w : World) (e : String)
    (h1 : AList.lookup w.putErrs "asset1" = none)
    (h2 : AList.lookup w.putErrs "asset2" = none)
    (h3 : AList.lookup w.putErrs "asset3" = some e) :
    InitLedger w =
      (⟨AList.put (AList.put w.data "asset1"
            (marshalAsset ⟨300, "blue", "asset1", "Tomoko", 5⟩)) "asset2"
            (marshalAsset ⟨400, "red", "asset2", "Brad", 5⟩),
        w.readErrs, w.putErrs, w.delErrs⟩,
       some ("Failed to put to world state. " ++ e)) := by
  simp [InitLedger, initLedgerLoop, initAssets, World.putState, h1, h2, h3]

theorem initLedger_failfast_witness :
    InitLedger ⟨[], [], [("asset3", "disk full")], []⟩ =
      (⟨AList.put (AList.put [] "asset1"
            (marshalAsset ⟨300, "blue", "asset1", "Tomoko", 5⟩)) "asset2"
            (marshalAsset ⟨400, "red", "asset2", "Brad", 5⟩),
        [], [("asset3", "disk full")], []⟩,
       some ("Failed to put to world state. " ++ "disk full")) :=
  initLedger_failfast ⟨[], [], [("asset3", "disk full")], []⟩ "disk full" rfl rfl rfl

/-- C6: with a store that write-faults on none of the six seed ids,
`InitLedger` succeeds; running it a second time returns exactly the
same store state and result as the first run; the keys `asset1` to
`asset6` are bound to the six fixed seed records (overwriting any
prior record under the same key); and no other key is touched. -/
theorem initLedger_idempotent (w : World)
    (h1 : AList.lookup w.putErrs "asset1" = none)
    (h2 : AList.lookup w.putErrs "asset2" = none)
    (h3 : AList.lookup w.putErrs "asset3" = none)
    (h4 : AList.lookup w.putErrs "asset4" = none)
    (h5 : AList.lookup w.putErrs "asset5" = none)
    (h6 : AList.lookup w.putErrs "asset6" = none) :
    (InitLedger w).2 = none ∧
    InitLedger (InitLedger w).1 = InitLedger w ∧
    (∀ a ∈ initAssets,
      AList.lookup (InitLedger w).1.data a.ID = some (marshalAsset a)) ∧
    (∀ k, k ∉ initAssets.map Asset.ID →
      AList.lookup (InitLedger w).1.data k = AList.lookup w.data k) := by
  have hrun : InitLedger w =
      (⟨AList.put (AList.put (AList.put (AList.put (AList.put (AList.put w.data
          "asset1" (marshalAsset ⟨300, "blue", "asset1", "Tomoko", 5⟩))
          "asset2" (marshalAsset ⟨400, "red", "asset2", "Brad", 5⟩))
          "asset3" (marshalAsset ⟨500, "green", "asset3", "Jin Soo", 10⟩))
          "asset4" (marshalAsset ⟨600, "yellow", "asset4", "Max", 10⟩))
          "asset5" (marshalAsset ⟨700, "black", "asset5", "Adriana", 15⟩))
          "asset6" (marshalAsset ⟨800, "white", "asset6", "Michel", 15⟩),
        w.readErrs, w.putErrs, w.delErrs⟩, none) := by
    simp [InitLedger, initLedgerLoop, initAssets, World.putState,
      h1, h2, h3, h4, h5, h6]
  refine ⟨by rw [hrun], ?_, ?_, ?_⟩
  · rw [hrun]
    simp [InitLedger, initLedgerLoop, initAssets, World.putState,
      h1, h2, h3, h4, h5, h6, AList.put_lookup_eq_self, AList.lookup_put]
  · intro a ha
    rw [hrun]
    simp [initAssets] at ha
    rcases ha with rfl | rfl | rfl | rfl | rfl | rfl <;>
      simp [AList.lookup_put, marshalAsset]
  · intro k hk
    rw [hrun]
    simp [initAssets] at hk
    obtain ⟨n1, n2, n3, n4, n5, n6⟩ := hk
    simp [AList.lookup_put, Ne.symm n1, Ne.symm n2, Ne.symm n3,
      Ne.symm n4, Ne.symm n5, Ne.symm n6]

theorem initLedger_idempotent_witness :
    (InitLedger ⟨[], [], [], []⟩).2 = none ∧
    InitLedger (InitLedger ⟨[], [], [], []⟩).1 = InitLedger ⟨[], [], [], []⟩ ∧
    AList.lookup (InitLedger ⟨[], [], [], []⟩).1.data "asset3" =
      some (marshalAsset ⟨500, "green", "asset3", "Jin Soo", 10⟩) ∧
    AList.lookup (InitLedger ⟨[], [], [], []⟩).1.data "asset9" = none := by
  have h := initLedger_idempotent ⟨[], [], [], []⟩ rfl rfl rfl rfl rfl rfl
  refine ⟨h.1, h.2.1, ?_, ?_⟩
  · exact h.2.2.1 ⟨500, "green", "asset3", "Jin Soo", 10⟩ (by decide)
  · simpa using h.2.2.2 "asset9" (by decide)

/-- Key/ID agreement: every stored record deserializes to an `Asset`
whose `ID` field equals the store key it is stored under. -/
def KeyIdInv (w : World) : Prop :=
  ∀ k j, AList.lookup w.data k = some j →
    ∃ a, unmarshalAsset j = .ok a ∧ a.ID = k

theorem keyIdInv_put (w : World) (a : Asset) (k : String) (hid : a.ID = k)
    (hw : KeyIdInv w) :
    KeyIdInv ⟨AList.put w.data k (marshalAsset a), w.readErrs, w.putErrs, w.delErrs⟩ := by
  intro k' j hj
  simp only [AList.lookup_put] at hj
  by_cases hk : k = k'
  · rw [if_pos hk] at hj
    injection hj with hj
    exact ⟨a, hj ▸ unmarshal_marshal a, hk ▸ hid⟩
  · rw [if_neg hk] at hj
    exact hw k' j hj

theorem keyIdInv_erase (w : World) (k : String) (hw : KeyIdInv w) :
    KeyIdInv ⟨AList.erase w.data k, w.readErrs, w.putErrs, w.delErrs⟩ := by
  intro k' j hj
  simp only [AList.lookup_erase] at hj
  by_cases hk : k = k'
  · rw [if_pos hk] at hj
    exact Option.noConfusion hj
  · rw [if_neg hk] at hj
    exact hw k' j hj

theorem keyIdInv_initLoop (assets : List Asset) : ∀ w w' : World,
    initLedgerLoop w assets = (w', none) → KeyIdInv w → KeyIdInv w' := by
  induction assets with
  | nil =>
    intro w w' h hw
    simp [initLedgerLoop] at h
    exact h ▸ hw
  | cons a rest ih =>
    intro w w' h hw
    rcases hp : AList.lookup w.putErrs a.ID with _ | e
    · simp only [initLedgerLoop, World.putState, hp] at h
      exact ih _ w' h (keyIdInv_put w a a.ID rfl hw)
    · simp only [initLedgerLoop, World.putState, hp] at h
      simp at h

/-- C10: if every stored record deserializes to an `Asset` whose `ID`
field equals its store key, then after any successful run of
`InitLedger`, `CreateAsset`, `UpdateAsset`, `DeleteAsset` or
`TransferAsset` the same agreement still holds for every stored
record. -/
theorem ops_preserve_keyIdInv (w : World) (hw : KeyIdInv w) :
    (∀ w', InitLedger w = (w', none) → KeyIdInv w') ∧
    (∀ id color size owner appraisedValue w',
      CreateAsset w id color size owner appraisedValue = (w', none) → KeyIdInv w') ∧
    (∀ id color size owner appraisedValue w',
      UpdateAsset w id color size owner appraisedValue = (w', none) → KeyIdInv w') ∧
    (∀ id w', DeleteAsset w id = (w', none) → KeyIdInv w') ∧
    (∀ id newOwner w', TransferAsset w id newOwner = (w', none) → KeyIdInv w') := by
  refine ⟨?_, ?_, ?_, ?_, ?_⟩
  · intro w' h
    exact keyIdInv_initLoop initAssets w w' h hw
  · intro id color size owner appraisedValue w' h
    rcases hae : AssetExists w id with e | b
    · simp only [CreateAsset, hae] at h
      simp at h
    · cases b
      · simp only [CreateAsset, hae] at h
        rcases hp : AList.lookup w.putErrs id with _ | e
        · simp only [World.putState, hp] at h
          injection h with h1 h2
          exact h1 ▸ keyIdInv_put w ⟨appraisedValue, color, id, owner, size⟩ id rfl hw
        · simp only [World.putState, hp] at h
          simp at h
      · simp only [CreateAsset, hae] at h
        simp at h
  · intro id color size owner appraisedValue w' h
    rcases hae : AssetExists w id with e | b
    · simp only [UpdateAsset, hae] at h
      simp at h
    · cases b
      · simp only [UpdateAsset, hae] at h
        simp at h
      · simp only [UpdateAsset, hae] at h
        rcases hp : AList.lookup w.putErrs id with _ | e
        · simp only [World.putState, hp] at h
          injection h with h1 h2
          exact h1 ▸ keyIdInv_put w ⟨appraisedValue, color, id, owner, size⟩ id rfl hw
        · simp only [World.putState, hp] at h
          simp at h
  · intro id w' h
    rcases hae : AssetExists w id with e | b
    · simp only [DeleteAsset, hae] at h
      simp at h
    · cases b
      · simp only [DeleteAsset, hae] at h
        simp at h
      · simp only [DeleteAsset, hae] at h
        rcases hp : AList.lookup w.delErrs id with _ | e
        · simp only [World.delState, hp] at h
          injection h with h1 h2
          exact h1 ▸ keyIdInv_erase w id hw
        · simp only [World.delState, hp] at h
          simp at h
  · intro id newOwner w' h
    rcases hra : ReadAsset w id with e | a
    · simp only [TransferAsset, hra] at h
      simp at h
    · have haid : a.ID = id := by
        rcases hre : AList.lookup w.readErrs id with _ | e
        · rcases hdj : AList.lookup w.data id with _ | j
          · simp [ReadAsset, World.getState, hre, hdj] at hra
          · simp only [ReadAsset, World.getState, hre, hdj] at hra
            obtain ⟨a', hu, hid⟩ := hw id j hdj
            rw [hra] at hu
            injection hu with hu
            exact hu ▸ hid
        · simp [ReadAsset, World.getState, hre] at hra
      simp only [TransferAsset, hra] at h
      rcases hp : AList.lookup w.putErrs id with _ | e
      · simp only [World.putState, hp] at h
        injection h with h1 h2
        exact h1 ▸ keyIdInv_put w { a with Owner := newOwner } id haid hw
      · simp only [World.putState, hp] at h
        simp at h

theorem ops_preserve_keyIdInv_witness :
    KeyIdInv ⟨[("asset7", marshalAsset ⟨42, "pink", "asset7", "Ana", 3⟩)], [], [], []⟩ := by
  have h0 : KeyIdInv ⟨[], [], [], []⟩ := by
    intro k j hj
    exact Option.noConfusion hj
  exact (ops_preserve_keyIdInv ⟨[], [], [], []⟩ h0).2.1 "asset7" "pink" 3 "Ana" 42 _ rfl

end Atcc
